import Mathlib

/-!
Verification of the matchmaker core: a shallow embedding of the rating
engine (`_calculate_delta_scores_pair`, `_calculate_delta_scores`), the
rating query (`_get_elos`), the result recorder (`_save_result`), the
test/typical match drivers and the worker pacing logic of
`src/app/matchmaker.py`, together with theorems settling the frozen
claims about them.

Machine floats are modelled by exact real arithmetic; the configured
constants (`score_turbulence`, `initial_score`) are explicit parameters.
-/

namespace Matchmaker

/-- Match outcome of one submission, mirroring `cuwais.common.Outcome`. -/
inductive Outcome where
  | Win
  | Loss
  | Draw
deriving DecidableEq, Repr

/-- Embeds `_calculate_delta_scores_pair` (matchmaker.py lines 97-113):
the classical two-player Elo delta for player A with win weight `winner_weight`,
with the configured turbulence constant `k` passed explicitly. -/
noncomputable def calculate_delta_scores_pair (k a_score b_score winner_weight : ℝ) : ℝ :=
  let a_rating := (10 : ℝ) ^ (a_score / 400)
  let b_rating := (10 : ℝ) ^ (b_score / 400)
  let a_expected := a_rating / (a_rating + b_rating)
  k * (winner_weight - a_expected)

/-- The expected score of a player rated `a` against a player rated `b`,
the subterm `a_expected` of `calculate_delta_scores_pair`. -/
noncomputable def expected_score (a b : ℝ) : ℝ :=
  (10 : ℝ) ^ (a / 400) / ((10 : ℝ) ^ (a / 400) + (10 : ℝ) ^ (b / 400))

/-- The `counts` dictionary of `_calculate_delta_scores`: how many zipped
(outcome, elo) entries carry outcome `o`. -/
def counts (outcomes : List Outcome) (elos : List ℝ) (o : Outcome) : ℕ :=
  ((outcomes.zip elos).filter (fun p => decide (p.1 = o))).length

/-- The `group_elos` dictionary of `_calculate_delta_scores`: the elos of the
zipped entries carrying outcome `o`, in input order. -/
def group_elos (outcomes : List Outcome) (elos : List ℝ) (o : Outcome) : List ℝ :=
  ((outcomes.zip elos).filter (fun p => decide (p.1 = o))).map (fun p => p.2)

/-- The `totals` dictionary of `_calculate_delta_scores`: the summed elos of the
zipped entries carrying outcome `o`. -/
noncomputable def totals (outcomes : List Outcome) (elos : List ℝ) (o : Outcome) : ℝ :=
  (group_elos outcomes elos o).sum

/-- The `win_loss` inter-group swing (lines 169-170): zero when either side is empty. -/
noncomputable def win_loss_delta (k : ℝ) (outcomes : List Outcome) (elos : List ℝ) : ℝ :=
  if 0 < counts outcomes elos Outcome.Win ∧ 0 < counts outcomes elos Outcome.Loss then
    calculate_delta_scores_pair k (totals outcomes elos Outcome.Win)
      (totals outcomes elos Outcome.Loss) 1
  else 0

/-- The `win_draw` inter-group swing (lines 171-172). -/
noncomputable def win_draw_delta (k : ℝ) (outcomes : List Outcome) (elos : List ℝ) : ℝ :=
  if 0 < counts outcomes elos Outcome.Win ∧ 0 < counts outcomes elos Outcome.Draw then
    calculate_delta_scores_pair k (totals outcomes elos Outcome.Win)
      (totals outcomes elos Outcome.Draw) 1
  else 0

/-- The `loss_draw` inter-group swing (lines 173-174): note the source passes the
Draw total as player A with win weight 1. -/
noncomputable def loss_draw_delta (k : ℝ) (outcomes : List Outcome) (elos : List ℝ) : ℝ :=
  if 0 < counts outcomes elos Outcome.Loss ∧ 0 < counts outcomes elos Outcome.Draw then
    calculate_delta_scores_pair k (totals outcomes elos Outcome.Draw)
      (totals outcomes elos Outcome.Loss) 1
  else 0

/-- The `single_team_outcome` selection (lines 178-184): the unique non-empty
outcome group, if at most one group is non-empty. -/
def single_team_outcome (outcomes : List Outcome) (elos : List ℝ) : Option Outcome :=
  if counts outcomes elos Outcome.Win = 0 ∧ counts outcomes elos Outcome.Loss = 0 then
    some Outcome.Draw
  else if counts outcomes elos Outcome.Win = 0 ∧ counts outcomes elos Outcome.Draw = 0 then
    some Outcome.Loss
  else if counts outcomes elos Outcome.Loss = 0 ∧ counts outcomes elos Outcome.Draw = 0 then
    some Outcome.Win
  else none

/-- The `single_team_elos` list (lines 186-187): the single group's elos sorted
ascending, or `[]` when several groups are non-empty. -/
noncomputable def single_team_elos (outcomes : List Outcome) (elos : List ℝ) : List ℝ :=
  match single_team_outcome outcomes elos with
  | some o => List.insertionSort (· ≤ ·) (group_elos outcomes elos o)
  | none => []

/-- The intra-group adjustment of one player (lines 204-210): pair the player's
first position in the sorted single-team list with the mirror position
(`len - pos - 1`) and apply the base formula with win weight 0.5, skipping a
player paired with itself. -/
noncomputable def intra_delta (k : ℝ) (ste : List ℝ) (elo : ℝ) : ℝ :=
  let position_in_team := ste.indexOf elo
  let opponent_position := ste.length - position_in_team - 1
  let opponent_elo := ste.getD opponent_position 0
  if opponent_position ≠ position_in_team then
    calculate_delta_scores_pair k elo opponent_elo 0.5
  else 0

/-- One iteration of the player-delta loop of `_calculate_delta_scores`
(lines 190-212): the inter-group share for the player's outcome plus, in the
single-team case, the mirrored intra-group adjustment. -/
noncomputable def player_delta (k : ℝ) (outcomes : List Outcome) (elos : List ℝ)
    (o : Outcome) (elo : ℝ) : ℝ :=
  let base :=
    match o with
    | Outcome.Win =>
        (win_loss_delta k outcomes elos + win_draw_delta k outcomes elos) /
          (counts outcomes elos Outcome.Win : ℝ)
    | Outcome.Loss =>
        (-(win_loss_delta k outcomes elos) - loss_draw_delta k outcomes elos) /
          (counts outcomes elos Outcome.Loss : ℝ)
    | Outcome.Draw =>
        (loss_draw_delta k outcomes elos - win_draw_delta k outcomes elos) /
          (counts outcomes elos Outcome.Draw : ℝ)
  let intra :=
    if single_team_outcome outcomes elos = some o then
      intra_delta k (single_team_elos outcomes elos) elo
    else 0
  base + intra

/-- Embeds `_calculate_delta_scores` (lines 116-229, computation part): the list
of Elo deltas, one per zipped (outcome, elo) input entry. -/
noncomputable def calculate_delta_scores (k : ℝ) (outcomes : List Outcome)
    (elos : List ℝ) : List ℝ :=
  (outcomes.zip elos).map (fun p => player_delta k outcomes elos p.1 p.2)

/-- The length assertion of `_calculate_delta_scores` (line 217). -/
def length_check (outcomes : List Outcome) (deltas : List ℝ) : Prop :=
  deltas.length = outcomes.length

/-- The zero-sum assertion of `_calculate_delta_scores` (line 218). -/
def zero_sum_check (deltas : List ℝ) : Prop :=
  -1e-6 < deltas.sum ∧ deltas.sum < 1e-6

/-- Python's `math.isclose` with `rel_tol=1e-9`, `abs_tol=0.0` (lines 223, 227). -/
def isclose (x y : ℝ) : Prop :=
  |x - y| ≤ 1e-9 * max |x| |y|

/-- The two-player self-check of `_calculate_delta_scores` for differing
outcomes (lines 224-227): the first player's delta must be close to the base
pair formula with win weight 1 exactly when the first outcome is a Win. -/
def two_player_mismatch_check (k : ℝ) (outcomes : List Outcome)
    (elos deltas : List ℝ) : Prop :=
  outcomes.length = 2 →
  outcomes.getD 0 Outcome.Draw ≠ outcomes.getD 1 Outcome.Draw →
  isclose (deltas.getD 0 0)
    (calculate_delta_scores_pair k (elos.getD 0 0) (elos.getD 1 0)
      (if outcomes.getD 0 Outcome.Draw = Outcome.Win then 1 else 0))

/-! ### Basic facts about the pair formula -/

theorem rpow_ten_pos (x : ℝ) : 0 < (10 : ℝ) ^ (x / 400) :=
  Real.rpow_pos_of_pos (by norm_num) _

theorem expected_score_pos (a b : ℝ) : 0 < expected_score a b :=
  div_pos (rpow_ten_pos a) (add_pos (rpow_ten_pos a) (rpow_ten_pos b))

theorem expected_score_lt_one (a b : ℝ) : expected_score a b < 1 := by
  unfold expected_score
  rw [div_lt_one (add_pos (rpow_ten_pos a) (rpow_ten_pos b))]
  exact lt_add_of_pos_right _ (rpow_ten_pos b)

theorem expected_score_self (a : ℝ) : expected_score a a = 1 / 2 := by
  unfold expected_score
  have h := rpow_ten_pos a
  have h2 : (10 : ℝ) ^ (a / 400) + (10 : ℝ) ^ (a / 400) ≠ 0 := by positivity
  rw [div_eq_iff h2]
  ring

theorem expected_score_swap (a b : ℝ) : expected_score b a = 1 - expected_score a b := by
  unfold expected_score
  have ha := rpow_ten_pos a
  have hb := rpow_ten_pos b
  have hab : (10 : ℝ) ^ (a / 400) + (10 : ℝ) ^ (b / 400) ≠ 0 := by positivity
  have hba : (10 : ℝ) ^ (b / 400) + (10 : ℝ) ^ (a / 400) ≠ 0 := by positivity
  rw [eq_sub_iff_add_eq, div_add_div _ _ hba hab, div_eq_one_iff_eq (by positivity)]
  ring

theorem pair_eq_expected (k a b w : ℝ) :
    calculate_delta_scores_pair k a b w = k * (w - expected_score a b) := rfl

theorem pair_half_antisymm (k a b : ℝ) :
    calculate_delta_scores_pair k a b 0.5 = -calculate_delta_scores_pair k b a 0.5 := by
  rw [pair_eq_expected, pair_eq_expected, expected_score_swap]
  ring

theorem expected_score_mono {a a2 b b2 : ℝ} (ha : a ≤ a2) (hb : b2 ≤ b) :
    expected_score a b ≤ expected_score a2 b2 := by
  unfold expected_score
  have hpa := rpow_ten_pos a
  have hpa2 := rpow_ten_pos a2
  have hpb := rpow_ten_pos b
  have hpb2 := rpow_ten_pos b2
  have hra : (10 : ℝ) ^ (a / 400) ≤ (10 : ℝ) ^ (a2 / 400) := by
    apply Real.rpow_le_rpow_of_exponent_le (by norm_num)
    linarith
  have hrb : (10 : ℝ) ^ (b2 / 400) ≤ (10 : ℝ) ^ (b / 400) := by
    apply Real.rpow_le_rpow_of_exponent_le (by norm_num)
    linarith
  rw [div_le_div_iff₀ (by linarith) (by linarith)]
  nlinarith [mul_le_mul hra hrb (le_of_lt hpb2) (le_of_lt hpa2)]

/-! ### C10: empty input -/

/-- C10: invoked with an empty outcome list and an empty rating list, the
rating engine returns the empty list, and its length and zero-sum assertions
hold (vacuously) on that output. -/
theorem c10_empty_input (k : ℝ) :
    calculate_delta_scores k [] [] = [] ∧
    length_check [] (calculate_delta_scores k [] []) ∧
    zero_sum_check (calculate_delta_scores k [] []) := by
  refine ⟨rfl, rfl, ?_⟩
  show -1e-6 < (List.sum []) ∧ (List.sum [] : ℝ) < 1e-6
  norm_num

/-! ### C6: worker pacing (Matchmaker.run, lines 389-402) -/

/-- Embeds the per-iteration sleep computation of `Matchmaker.run`
(lines 395-402): `wait_time = seconds_per_run - diff`; on failure the source
evaluates `wait_time + penalty` as a bare expression whose value is discarded
(line 398); then the jitter `0.05 * seconds_per_run * (r - 0.5)` is added and
the sleep duration is `max 0 wait_time`. `penalty` stands for the drawn
`random.randint(1, max(2, seconds_per_run))` and `r` for `random.random()`. -/
def run_wait_time (seconds_per_run diff penalty r : ℝ) (success : Bool) : ℝ :=
  let wait_time := seconds_per_run - diff
  let _discarded := if success then wait_time else wait_time + penalty
  let wait_time := wait_time + 0.05 * seconds_per_run * (r - 0.5)
  max 0 wait_time

/-- Modelled from the spec: the sleep duration the pacing rule of the spec
prescribes, in which the failure penalty is actually added to the waiting
time before sleeping. -/
def spec_wait_time (seconds_per_run diff penalty r : ℝ) (success : Bool) : ℝ :=
  let wait_time := seconds_per_run - diff
  let wait_time := if success then wait_time else wait_time + penalty
  let wait_time := wait_time + 0.05 * seconds_per_run * (r - 0.5)
  max 0 wait_time

/-- C6: the code discards the failure penalty (line 398 computes
`wait_time + random.randint(...)` without assigning it), so the slept duration
never depends on the drawn penalty; on the failing input
(target 10 s, elapsed 0, penalty 5, central jitter draw) the code sleeps 10 s
while the claimed duration is 15 s. -/
theorem c6_failure_penalty_discarded :
    (∀ s d p p2 r : ℝ, ∀ su : Bool, run_wait_time s d p r su = run_wait_time s d p2 r su) ∧
    run_wait_time 10 0 5 0.5 false = 10 ∧
    spec_wait_time 10 0 5 0.5 false = 15 ∧
    run_wait_time 10 0 5 0.5 false ≠ spec_wait_time 10 0 5 0.5 false := by
  refine ⟨fun s d p p2 r su => rfl, ?_, ?_, ?_⟩ <;>
    norm_num [run_wait_time, spec_wait_time, max_def]

/-! ### C9: the Loss/Draw pairing orientation -/

/-- C9: when both the Loss and the Draw groups are non-empty the `loss_draw`
swing is the base pair formula with the Draw total as player A and win
weight 1, each Draw member's share from this pairing is strictly positive and
each Loss member's share from it is strictly negative. -/
theorem c9_loss_draw_orientation (k : ℝ) (outcomes : List Outcome) (elos : List ℝ)
    (hk : 0 < k) (hl : 0 < counts outcomes elos Outcome.Loss)
    (hd : 0 < counts outcomes elos Outcome.Draw) :
    loss_draw_delta k outcomes elos =
      calculate_delta_scores_pair k (totals outcomes elos Outcome.Draw)
        (totals outcomes elos Outcome.Loss) 1 ∧
    0 < loss_draw_delta k outcomes elos / (counts outcomes elos Outcome.Draw : ℝ) ∧
    -(loss_draw_delta k outcomes elos) / (counts outcomes elos Outcome.Loss : ℝ) < 0 := by
  have heq : loss_draw_delta k outcomes elos =
      calculate_delta_scores_pair k (totals outcomes elos Outcome.Draw)
        (totals outcomes elos Outcome.Loss) 1 := by
    unfold loss_draw_delta
    exact if_pos ⟨hl, hd⟩
  have hpos : 0 < loss_draw_delta k outcomes elos := by
    rw [heq, pair_eq_expected]
    have hlt := expected_score_lt_one (totals outcomes elos Outcome.Draw)
      (totals outcomes elos Outcome.Loss)
    nlinarith
  refine ⟨heq, div_pos hpos (by exact_mod_cast hd), ?_⟩
  apply div_neg_of_neg_of_pos (by linarith)
  exact_mod_cast hl

/-- Witness for C9 at a concrete input: two players, one losing and one
drawing, with equal ratings and turbulence 1. -/
theorem c9_witness :
    0 < (1 : ℝ) ∧
    0 < counts [Outcome.Loss, Outcome.Draw] [0, 0] Outcome.Loss ∧
    0 < counts [Outcome.Loss, Outcome.Draw] [0, 0] Outcome.Draw ∧
    0 < loss_draw_delta 1 [Outcome.Loss, Outcome.Draw] [0, 0] /
      (counts [Outcome.Loss, Outcome.Draw] [0, 0] Outcome.Draw : ℝ) :=
  ⟨by norm_num, by decide, by decide,
    (c9_loss_draw_orientation 1 [Outcome.Loss, Outcome.Draw] [0, 0]
      (by norm_num) (by decide) (by decide)).2.1⟩

/-! ### Structural lemmas about the single-team branch -/

theorem single_team_counts {outcomes : List Outcome} {elos : List ℝ} {s : Outcome}
    (h : single_team_outcome outcomes elos = some s) :
    ∀ o, o ≠ s → counts outcomes elos o = 0 := by
  unfold single_team_outcome at h
  split_ifs at h with h1 h2 h3 <;>
    simp only [Option.some.injEq] at h
  · subst h
    intro o ho
    cases o
    · exact h1.1
    · exact h1.2
    · exact absurd rfl ho
  · subst h
    intro o ho
    cases o
    · exact h2.1
    · exact absurd rfl ho
    · exact h2.2
  · subst h
    intro o ho
    cases o
    · exact absurd rfl ho
    · exact h3.1
    · exact h3.2

theorem single_team_inter_zero {k : ℝ} {outcomes : List Outcome} {elos : List ℝ}
    {s : Outcome} (h : single_team_outcome outcomes elos = some s) :
    win_loss_delta k outcomes elos = 0 ∧ win_draw_delta k outcomes elos = 0 ∧
      loss_draw_delta k outcomes elos = 0 := by
  have hc := single_team_counts h
  refine ⟨?_, ?_, ?_⟩
  · unfold win_loss_delta
    rw [if_neg]
    rintro ⟨hw, hl⟩
    cases s
    · rw [hc Outcome.Loss (by decide)] at hl; exact absurd hl (lt_irrefl 0)
    · rw [hc Outcome.Win (by decide)] at hw; exact absurd hw (lt_irrefl 0)
    · rw [hc Outcome.Win (by decide)] at hw; exact absurd hw (lt_irrefl 0)
  · unfold win_draw_delta
    rw [if_neg]
    rintro ⟨hw, hd⟩
    cases s
    · rw [hc Outcome.Draw (by decide)] at hd; exact absurd hd (lt_irrefl 0)
    · rw [hc Outcome.Win (by decide)] at hw; exact absurd hw (lt_irrefl 0)
    · rw [hc Outcome.Win (by decide)] at hw; exact absurd hw (lt_irrefl 0)
  · unfold loss_draw_delta
    rw [if_neg]
    rintro ⟨hl, hd⟩
    cases s
    · rw [hc Outcome.Loss (by decide)] at hl; exact absurd hl (lt_irrefl 0)
    · rw [hc Outcome.Draw (by decide)] at hd; exact absurd hd (lt_irrefl 0)
    · rw [hc Outcome.Loss (by decide)] at hl; exact absurd hl (lt_irrefl 0)

theorem player_delta_single_team {k : ℝ} {outcomes : List Outcome} {elos : List ℝ}
    {s : Outcome} (h : single_team_outcome outcomes elos = some s)
    (o : Outcome) (elo : ℝ) :
    player_delta k outcomes elos o elo =
      if single_team_outcome outcomes elos = some o then
        intra_delta k (single_team_elos outcomes elos) elo
      else 0 := by
  obtain ⟨hwl, hwd, hld⟩ := single_team_inter_zero (k := k) h
  cases o <;> simp [player_delta, hwl, hwd, hld]

theorem single_team_elos_sorted (outcomes : List Outcome) (elos : List ℝ) :
    List.Sorted (· ≤ ·) (single_team_elos outcomes elos) := by
  unfold single_team_elos
  split
  · exact List.sorted_insertionSort _ _
  · exact List.sorted_nil

theorem intra_delta_closed {k : ℝ} {ste : List ℝ} {elo : ℝ} (hmem : elo ∈ ste) :
    intra_delta k ste elo =
      k * (0.5 - expected_score elo (ste.getD (ste.length - ste.indexOf elo - 1) 0)) := by
  unfold intra_delta
  by_cases hcase : ste.length - ste.indexOf elo - 1 = ste.indexOf elo
  · rw [if_neg (not_not_intro hcase), hcase,
      List.getD_eq_getElem ste 0 (List.indexOf_lt_length.mpr hmem),
      List.getElem_indexOf (List.indexOf_lt_length.mpr hmem), expected_score_self]
    norm_num
  · rw [if_pos hcase, pair_eq_expected]

theorem intra_delta_mono {k : ℝ} (hk : 0 ≤ k) {ste : List ℝ}
    (hs : List.Sorted (· ≤ ·) ste) {a b : ℝ} (ha : a ∈ ste) (hb : b ∈ ste)
    (hab : a < b) :
    intra_delta k ste b ≤ intra_delta k ste a := by
  have hia : ste.indexOf a < ste.length := List.indexOf_lt_length.mpr ha
  have hib : ste.indexOf b < ste.length := List.indexOf_lt_length.mpr hb
  have hidx : ste.indexOf a < ste.indexOf b := by
    by_contra hle
    push_neg at hle
    have hrel := hs.rel_get_of_le (a := ⟨ste.indexOf b, hib⟩) (b := ⟨ste.indexOf a, hia⟩)
      (Fin.mk_le_mk.mpr hle)
    rw [List.indexOf_get, List.indexOf_get] at hrel
    linarith
  have hma_lt : ste.length - ste.indexOf a - 1 < ste.length := by omega
  have hmb_lt : ste.length - ste.indexOf b - 1 < ste.length := by omega
  have hopp : ste.getD (ste.length - ste.indexOf b - 1) 0 ≤
      ste.getD (ste.length - ste.indexOf a - 1) 0 := by
    rw [List.getD_eq_getElem ste 0 hmb_lt, List.getD_eq_getElem ste 0 hma_lt]
    have hrel2 := hs.rel_get_of_le (a := ⟨ste.length - ste.indexOf b - 1, hmb_lt⟩)
      (b := ⟨ste.length - ste.indexOf a - 1, hma_lt⟩) (Fin.mk_le_mk.mpr (by omega))
    simpa using hrel2
  rw [intra_delta_closed ha, intra_delta_closed hb]
  have hE := expected_score_mono (le_of_lt hab) hopp
  nlinarith

/-! ### Indexing lemmas for the delta list -/

theorem getD_map_of_lt {α β : Type} (f : α → β) (l : List α) (i : ℕ)
    (h : i < l.length) (d : β) (d2 : α) :
    (l.map f).getD i d = f (l.getD i d2) := by
  induction l generalizing i with
  | nil => simp at h
  | cons x xs ih =>
    cases i with
    | zero => simp
    | succ n =>
      simp only [List.map_cons, List.getD_cons_succ]
      exact ih n (by simpa using h)

theorem getD_zip_of_lt {α β : Type} (l1 : List α) (l2 : List β) (i : ℕ)
    (h1 : i < l1.length) (h2 : i < l2.length) (d1 : α) (d2 : β) :
    (l1.zip l2).getD i (d1, d2) = (l1.getD i d1, l2.getD i d2) := by
  induction l1 generalizing l2 i with
  | nil => simp at h1
  | cons x xs ih =>
    cases l2 with
    | nil => simp at h2
    | cons y ys =>
      cases i with
      | zero => simp [List.zip_cons_cons]
      | succ n =>
        simp only [List.zip_cons_cons, List.getD_cons_succ]
        exact ih ys n (by simpa using h1) (by simpa using h2)

theorem calculate_delta_scores_getD {k : ℝ} {outcomes : List Outcome} {elos : List ℝ}
    (hlen : outcomes.length = elos.length) {i : ℕ} (hi : i < outcomes.length) :
    (calculate_delta_scores k outcomes elos).getD i 0 =
      player_delta k outcomes elos (outcomes.getD i Outcome.Draw) (elos.getD i 0) := by
  unfold calculate_delta_scores
  have hzlen : i < (outcomes.zip elos).length := by
    rw [List.length_zip]; omega
  rw [getD_map_of_lt _ _ i hzlen 0 (Outcome.Draw, 0),
    getD_zip_of_lt _ _ i hi (by omega) Outcome.Draw 0]

theorem mem_zip_getD {outcomes : List Outcome} {elos : List ℝ}
    (hlen : outcomes.length = elos.length) {i : ℕ} (hi : i < outcomes.length) :
    (outcomes.getD i Outcome.Draw, elos.getD i 0) ∈ outcomes.zip elos := by
  have hzlen : i < (outcomes.zip elos).length := by
    rw [List.length_zip]; omega
  have h1 : (outcomes.zip elos).getD i (Outcome.Draw, 0) =
      (outcomes.getD i Outcome.Draw, elos.getD i 0) :=
    getD_zip_of_lt _ _ i hi (by omega) Outcome.Draw 0
  rw [← h1, List.getD_eq_getElem _ _ hzlen]
  exact List.getElem_mem _

theorem single_team_member_outcome {outcomes : List Outcome} {elos : List ℝ}
    {s : Outcome} (hsto : single_team_outcome outcomes elos = some s)
    (hlen : outcomes.length = elos.length) {i : ℕ} (hi : i < outcomes.length) :
    outcomes.getD i Outcome.Draw = s := by
  by_contra hne
  have h0 := single_team_counts hsto _ hne
  have hmem := mem_zip_getD hlen hi
  have hpos : 0 < counts outcomes elos (outcomes.getD i Outcome.Draw) := by
    unfold counts
    apply List.length_pos.mpr
    apply List.ne_nil_of_mem (a := (outcomes.getD i Outcome.Draw, elos.getD i 0))
    exact List.mem_filter.mpr ⟨hmem, by simp⟩
  omega

theorem mem_single_team_elos {outcomes : List Outcome} {elos : List ℝ} {s : Outcome}
    (hsto : single_team_outcome outcomes elos = some s)
    (hlen : outcomes.length = elos.length) {i : ℕ} (hi : i < outcomes.length) :
    elos.getD i 0 ∈ single_team_elos outcomes elos := by
  have ho := single_team_member_outcome hsto hlen hi
  unfold single_team_elos
  rw [hsto]
  rw [List.mem_insertionSort]
  unfold group_elos
  refine List.mem_map.mpr ⟨(outcomes.getD i Outcome.Draw, elos.getD i 0), ?_, rfl⟩
  refine List.mem_filter.mpr ⟨mem_zip_getD hlen hi, ?_⟩
  simp only [decide_eq_true_eq]
  exact ho

/-! ### C7: handicap monotonicity -/

/-- C7: within a shared outcome, a strictly lower-rated player never receives
a strictly smaller delta than a strictly higher-rated one (with the configured
turbulence constant non-negative). -/
theorem c7_handicap_monotonic (k : ℝ) (outcomes : List Outcome) (elos : List ℝ)
    (hk : 0 ≤ k) (hlen : outcomes.length = elos.length) (i j : ℕ)
    (hi : i < outcomes.length) (hj : j < outcomes.length)
    (hout : outcomes.getD i Outcome.Draw = outcomes.getD j Outcome.Draw)
    (helo : elos.getD i 0 < elos.getD j 0) :
    (calculate_delta_scores k outcomes elos).getD j 0 ≤
      (calculate_delta_scores k outcomes elos).getD i 0 := by
  rw [calculate_delta_scores_getD hlen hi, calculate_delta_scores_getD hlen hj, ← hout]
  rcases hsto : single_team_outcome outcomes elos with _ | s
  · have hne : single_team_outcome outcomes elos ≠ some (outcomes.getD i Outcome.Draw) := by
      rw [hsto]; simp
    simp only [player_delta, if_neg hne, add_zero]
    exact le_rfl
  · rw [player_delta_single_team hsto, player_delta_single_team hsto]
    by_cases hso : single_team_outcome outcomes elos = some (outcomes.getD i Outcome.Draw)
    · rw [if_pos hso, if_pos hso]
      exact intra_delta_mono hk (single_team_elos_sorted outcomes elos)
        (mem_single_team_elos hsto hlen hi) (mem_single_team_elos hsto hlen hj) helo
    · rw [if_neg hso, if_neg hso]

/-- Witness for C7: two drawing players rated 0 and 400 with turbulence 1. -/
theorem c7_witness :
    (0 : ℝ) ≤ 1 ∧
    ([(0 : ℝ), 400]).getD 0 0 < ([(0 : ℝ), 400]).getD 1 0 ∧
    (calculate_delta_scores 1 [Outcome.Draw, Outcome.Draw] [0, 400]).getD 1 0 ≤
      (calculate_delta_scores 1 [Outcome.Draw, Outcome.Draw] [0, 400]).getD 0 0 :=
  ⟨by norm_num, by norm_num,
    c7_handicap_monotonic 1 [Outcome.Draw, Outcome.Draw] [0, 400]
      (by norm_num) rfl 0 1 (by norm_num) (by norm_num) rfl (by norm_num)⟩

/-! ### C3: single-group mirroring -/

theorem single_team_delta_formula (k : ℝ) {outcomes : List Outcome} {elos : List ℝ}
    {s : Outcome} (hlen : outcomes.length = elos.length)
    (hsto : single_team_outcome outcomes elos = some s)
    {i : ℕ} (hi : i < outcomes.length) :
    (calculate_delta_scores k outcomes elos).getD i 0 =
      if (single_team_elos outcomes elos).length -
          (single_team_elos outcomes elos).indexOf (elos.getD i 0) - 1 =
          (single_team_elos outcomes elos).indexOf (elos.getD i 0) then 0
      else
        calculate_delta_scores_pair k (elos.getD i 0)
          ((single_team_elos outcomes elos).getD
            ((single_team_elos outcomes elos).length -
              (single_team_elos outcomes elos).indexOf (elos.getD i 0) - 1) 0) 0.5 := by
  have ho := single_team_member_outcome hsto hlen hi
  rw [calculate_delta_scores_getD hlen hi, ho, player_delta_single_team hsto,
    if_pos hsto]
  unfold intra_delta
  simp only [ne_eq, ite_not]

/-- The all-draw five-player outcome list of the mirroring test property. -/
def five_draws : List Outcome :=
  [Outcome.Draw, Outcome.Draw, Outcome.Draw, Outcome.Draw, Outcome.Draw]

/-- The five ascending ratings of the mirroring test property. -/
noncomputable def five_elos : List ℝ :=
  [1000, 2000, 3000, 4000, 5000]

/-- C3: in the single-team case each member's delta is the base pair formula
with win weight 0.5 against the rating at the mirror of its (first) position
in the ascending-sorted group, a member paired with itself (the exact middle)
receives 0, and for five drawing players rated 1000..5000 the 1st/5th and
2nd/4th deltas are equal-and-opposite while the 3rd is 0. -/
theorem c3_single_group_mirroring :
    (∀ (k : ℝ) (outcomes : List Outcome) (elos : List ℝ) (s : Outcome) (i : ℕ),
      outcomes.length = elos.length →
      single_team_outcome outcomes elos = some s →
      i < outcomes.length →
      (calculate_delta_scores k outcomes elos).getD i 0 =
        if (single_team_elos outcomes elos).length -
            (single_team_elos outcomes elos).indexOf (elos.getD i 0) - 1 =
            (single_team_elos outcomes elos).indexOf (elos.getD i 0) then 0
        else
          calculate_delta_scores_pair k (elos.getD i 0)
            ((single_team_elos outcomes elos).getD
              ((single_team_elos outcomes elos).length -
                (single_team_elos outcomes elos).indexOf (elos.getD i 0) - 1) 0) 0.5) ∧
    (∀ k : ℝ,
      (calculate_delta_scores k five_draws five_elos).getD 0 0 =
          -((calculate_delta_scores k five_draws five_elos).getD 4 0) ∧
      (calculate_delta_scores k five_draws five_elos).getD 2 0 = 0 ∧
      (calculate_delta_scores k five_draws five_elos).getD 1 0 =
          -((calculate_delta_scores k five_draws five_elos).getD 3 0)) := by
  refine ⟨fun k outcomes elos s i hlen hsto hi =>
    single_team_delta_formula k hlen hsto hi, fun k => ?_⟩
  simp only [five_draws, five_elos]
  have hsto : single_team_outcome
      [Outcome.Draw, Outcome.Draw, Outcome.Draw, Outcome.Draw, Outcome.Draw]
      [(1000 : ℝ), 2000, 3000, 4000, 5000] = some Outcome.Draw := rfl
  have hste : single_team_elos
      [Outcome.Draw, Outcome.Draw, Outcome.Draw, Outcome.Draw, Outcome.Draw]
      [(1000 : ℝ), 2000, 3000, 4000, 5000] = [(1000 : ℝ), 2000, 3000, 4000, 5000] := by
    show List.insertionSort (· ≤ ·) [(1000 : ℝ), 2000, 3000, 4000, 5000] =
      [(1000 : ℝ), 2000, 3000, 4000, 5000]
    norm_num [List.insertionSort, List.orderedInsert]
  have h0 := single_team_delta_formula k rfl hsto (show (0 : ℕ) < 5 by norm_num)
  have h1 := single_team_delta_formula k rfl hsto (show (1 : ℕ) < 5 by norm_num)
  have h2 := single_team_delta_formula k rfl hsto (show (2 : ℕ) < 5 by norm_num)
  have h3 := single_team_delta_formula k rfl hsto (show (3 : ℕ) < 5 by norm_num)
  have h4 := single_team_delta_formula k rfl hsto (show (4 : ℕ) < 5 by norm_num)
  rw [hste] at h0 h1 h2 h3 h4
  norm_num [List.indexOf_cons_self, List.indexOf_cons_ne,
    List.getD_cons_zero, List.getD_cons_succ] at h0 h1 h2 h3 h4
  simp only [List.getD_eq_getElem?_getD]
  refine ⟨?_, h2, ?_⟩
  · rw [h0, h4, pair_eq_expected, pair_eq_expected, expected_score_swap 1000 5000]
    ring
  · rw [h1, h3, pair_eq_expected, pair_eq_expected, expected_score_swap 2000 4000]
    ring

/-- Witness for C3: a single drawing player, paired with itself at the
middle, receives delta 0. -/
theorem c3_witness :
    ([Outcome.Draw] : List Outcome).length = ([(0 : ℝ)] : List ℝ).length ∧
    single_team_outcome [Outcome.Draw] [(0 : ℝ)] = some Outcome.Draw ∧
    (0 : ℕ) < ([Outcome.Draw] : List Outcome).length ∧
    (calculate_delta_scores 1 [Outcome.Draw] [(0 : ℝ)]).getD 0 0 =
      (if (single_team_elos [Outcome.Draw] [(0 : ℝ)]).length -
          (single_team_elos [Outcome.Draw] [(0 : ℝ)]).indexOf
            (([(0 : ℝ)] : List ℝ).getD 0 0) - 1 =
          (single_team_elos [Outcome.Draw] [(0 : ℝ)]).indexOf
            (([(0 : ℝ)] : List ℝ).getD 0 0) then 0
      else
        calculate_delta_scores_pair 1 (([(0 : ℝ)] : List ℝ).getD 0 0)
          ((single_team_elos [Outcome.Draw] [(0 : ℝ)]).getD
            ((single_team_elos [Outcome.Draw] [(0 : ℝ)]).length -
              (single_team_elos [Outcome.Draw] [(0 : ℝ)]).indexOf
                (([(0 : ℝ)] : List ℝ).getD 0 0) - 1) 0) 0.5) :=
  ⟨rfl, rfl, by norm_num,
    c3_single_group_mirroring.1 1 [Outcome.Draw] [(0 : ℝ)] Outcome.Draw 0 rfl rfl
      (by norm_num)⟩

/-! ### Concrete expected scores at kernel-evaluable exponents -/

theorem expected_score_0_400 : expected_score 0 400 = 1 / 11 := by
  unfold expected_score
  rw [show ((0 : ℝ) / 400) = 0 by norm_num, show ((400 : ℝ) / 400) = 1 by norm_num,
    Real.rpow_zero, Real.rpow_one]
  norm_num

theorem expected_score_400_0 : expected_score 400 0 = 10 / 11 := by
  unfold expected_score
  rw [show ((0 : ℝ) / 400) = 0 by norm_num, show ((400 : ℝ) / 400) = 1 by norm_num,
    Real.rpow_zero, Real.rpow_one]
  norm_num

/-! ### C1: zero-sum fails on duplicated ratings in the single-team case -/

/-- C1: on the all-draw input with ratings (0, 0, 400) and turbulence 40 the
deltas sum to 180/11 (about 16.36), so the zero-sum assertion of
`_calculate_delta_scores` is violated: `list.index` maps both 0-rated players
to the same (first) sorted position, and both are paired against the 400-rated
mirror. -/
theorem c1_zero_sum_violated :
    (calculate_delta_scores 40 [Outcome.Draw, Outcome.Draw, Outcome.Draw]
        [0, 0, 400]).sum = 180 / 11 ∧
    ¬ zero_sum_check (calculate_delta_scores 40
        [Outcome.Draw, Outcome.Draw, Outcome.Draw] [0, 0, 400]) := by
  have hsto : single_team_outcome [Outcome.Draw, Outcome.Draw, Outcome.Draw]
      [(0 : ℝ), 0, 400] = some Outcome.Draw := rfl
  have hste : single_team_elos [Outcome.Draw, Outcome.Draw, Outcome.Draw]
      [(0 : ℝ), 0, 400] = [(0 : ℝ), 0, 400] := by
    show List.insertionSort (· ≤ ·) [(0 : ℝ), 0, 400] = [(0 : ℝ), 0, 400]
    norm_num [List.insertionSort, List.orderedInsert]
  have hds : calculate_delta_scores 40 [Outcome.Draw, Outcome.Draw, Outcome.Draw]
      [(0 : ℝ), 0, 400] =
      [player_delta 40 [Outcome.Draw, Outcome.Draw, Outcome.Draw] [(0 : ℝ), 0, 400]
        Outcome.Draw 0,
       player_delta 40 [Outcome.Draw, Outcome.Draw, Outcome.Draw] [(0 : ℝ), 0, 400]
        Outcome.Draw 0,
       player_delta 40 [Outcome.Draw, Outcome.Draw, Outcome.Draw] [(0 : ℝ), 0, 400]
        Outcome.Draw 400] := rfl
  have hpd0 : player_delta 40 [Outcome.Draw, Outcome.Draw, Outcome.Draw]
      [(0 : ℝ), 0, 400] Outcome.Draw 0 = 180 / 11 := by
    rw [player_delta_single_team hsto, if_pos hsto, hste]
    unfold intra_delta
    norm_num [List.indexOf_cons_self, List.getD_cons_succ, List.getD_cons_zero,
      pair_eq_expected, expected_score_0_400]
  have hpd400 : player_delta 40 [Outcome.Draw, Outcome.Draw, Outcome.Draw]
      [(0 : ℝ), 0, 400] Outcome.Draw 400 = -(180 / 11) := by
    rw [player_delta_single_team hsto, if_pos hsto, hste]
    unfold intra_delta
    norm_num [List.indexOf_cons_self, List.indexOf_cons_ne,
      List.getD_cons_succ, List.getD_cons_zero, pair_eq_expected, expected_score_400_0]
  have hsum : (calculate_delta_scores 40 [Outcome.Draw, Outcome.Draw, Outcome.Draw]
      [(0 : ℝ), 0, 400]).sum = 180 / 11 := by
    rw [hds, hpd0, hpd400]
    norm_num
  refine ⟨hsum, fun hz => ?_⟩
  have h2 := hz.2
  rw [hsum] at h2
  norm_num at h2

/-! ### C2: the two-player Draw/Loss case contradicts the code's self-check -/

/-- C2: for two players with outcomes (Draw, Loss) and equal ratings 0 at
turbulence 40 the engine computes deltas (20, -20) because `loss_draw` treats
the Draw side as the winner (win weight 1), while the code's own two-player
self-check (lines 224-227), which implements the claim, expects the win-weight
0 value -20 for the first player: the check fails on this input. -/
theorem c2_two_player_draw_loss_bug :
    calculate_delta_scores 40 [Outcome.Draw, Outcome.Loss] [0, 0] = [20, -20] ∧
    calculate_delta_scores_pair 40 0 0 0 = -20 ∧
    ¬ two_player_mismatch_check 40 [Outcome.Draw, Outcome.Loss] [0, 0]
        (calculate_delta_scores 40 [Outcome.Draw, Outcome.Loss] [0, 0]) := by
  have hwl : win_loss_delta 40 [Outcome.Draw, Outcome.Loss] [(0 : ℝ), 0] = 0 := by
    unfold win_loss_delta
    exact if_neg (by decide)
  have hwd : win_draw_delta 40 [Outcome.Draw, Outcome.Loss] [(0 : ℝ), 0] = 0 := by
    unfold win_draw_delta
    exact if_neg (by decide)
  have htd : totals [Outcome.Draw, Outcome.Loss] [(0 : ℝ), 0] Outcome.Draw = 0 := by
    simp [totals, group_elos]
  have htl : totals [Outcome.Draw, Outcome.Loss] [(0 : ℝ), 0] Outcome.Loss = 0 := by
    simp [totals, group_elos]
  have hld : loss_draw_delta 40 [Outcome.Draw, Outcome.Loss] [(0 : ℝ), 0] = 20 := by
    unfold loss_draw_delta
    rw [if_pos (by decide), htd, htl, pair_eq_expected, expected_score_self]
    norm_num
  have hsto : single_team_outcome [Outcome.Draw, Outcome.Loss] [(0 : ℝ), 0] = none := rfl
  have hcd : counts [Outcome.Draw, Outcome.Loss] [(0 : ℝ), 0] Outcome.Draw = 1 := rfl
  have hcl : counts [Outcome.Draw, Outcome.Loss] [(0 : ℝ), 0] Outcome.Loss = 1 := rfl
  have hpdd : player_delta 40 [Outcome.Draw, Outcome.Loss] [(0 : ℝ), 0]
      Outcome.Draw 0 = 20 := by
    simp only [player_delta]
    rw [if_neg (show single_team_outcome [Outcome.Draw, Outcome.Loss] [(0 : ℝ), 0] ≠
      some Outcome.Draw from by rw [hsto]; simp)]
    rw [hld, hwd, hcd]
    norm_num
  have hpdl : player_delta 40 [Outcome.Draw, Outcome.Loss] [(0 : ℝ), 0]
      Outcome.Loss 0 = -20 := by
    simp only [player_delta]
    rw [if_neg (show single_team_outcome [Outcome.Draw, Outcome.Loss] [(0 : ℝ), 0] ≠
      some Outcome.Loss from by rw [hsto]; simp)]
    rw [hld, hwl, hcl]
    norm_num
  have hds : calculate_delta_scores 40 [Outcome.Draw, Outcome.Loss] [(0 : ℝ), 0] =
      [(20 : ℝ), -20] := by
    show [player_delta 40 [Outcome.Draw, Outcome.Loss] [(0 : ℝ), 0] Outcome.Draw 0,
      player_delta 40 [Outcome.Draw, Outcome.Loss] [(0 : ℝ), 0] Outcome.Loss 0] =
      [(20 : ℝ), -20]
    rw [hpdd, hpdl]
  have hpair : calculate_delta_scores_pair 40 0 0 0 = -20 := by
    rw [pair_eq_expected, expected_score_self]
    norm_num
  refine ⟨hds, hpair, fun hchk => ?_⟩
  have h := hchk rfl (by decide)
  rw [show (calculate_delta_scores 40 [Outcome.Draw, Outcome.Loss] [0, 0]).getD 0 0 =
    (20 : ℝ) from by rw [hds]; rfl] at h
  have h4 : isclose 20 (calculate_delta_scores_pair 40 0 0 0) := h
  rw [hpair] at h4
  have h5 : |(20 : ℝ) - (-20)| ≤ 1e-9 * max |(20 : ℝ)| |(-20 : ℝ)| := h4
  rw [show ((20 : ℝ) - (-20)) = 40 by norm_num, abs_of_pos (by norm_num : (0 : ℝ) < 40),
    abs_of_pos (by norm_num : (0 : ℝ) < 20), abs_of_neg (by norm_num : (-20 : ℝ) < 0)] at h5
  norm_num at h5

/-! ### Store model: submissions, per-slot results, persisted result rows -/

/-- A `Submission` row as the queries use it: identity and owning user. -/
structure Submission where
  id : ℕ
  user_id : ℕ
deriving DecidableEq, Repr

/-- One per-slot entry of the execution payload `result["submission_results"]`. -/
structure SlotResult where
  outcome : Outcome
  healthy : Bool
  player_id : ℕ
  printed : String
  result_code : ℤ
deriving DecidableEq, Repr

/-- One persisted `Result` row (the fields `_save_result` writes). -/
structure ResultRow where
  submission_id : ℕ
  outcome : Outcome
  healthy : Bool
  points_delta : ℝ
  player_id : ℕ
  prints : String
  result_code : ℤ

/-- The per-user delta sum of the `_get_elos` subquery (lines 236-242): the
sum of `points_delta` over result rows of those submissions of user `u` that
are in the queried id list. -/
noncomputable def user_elo_sum (subs : List Submission) (results : List ResultRow)
    (ids : List ℕ) (u : ℕ) : ℝ :=
  ((results.filter (fun r => subs.any (fun s =>
      s.id == r.submission_id && s.user_id == u && ids.contains s.id))).map
    (fun r => r.points_delta)).sum

/-- Embeds `_get_elos` (lines 232-258): for each queried submission id, the
per-user id-restricted delta sum (0 when the id is unknown or the user has no
joined rows, like `elo_lookup.get(i, 0)`) plus the configured initial score. -/
noncomputable def get_elos (init : ℝ) (subs : List Submission)
    (results : List ResultRow) (ids : List ℕ) : List ℝ :=
  ids.map (fun i =>
    (match subs.find? (fun s => s.id == i) with
     | some s => user_elo_sum subs results ids s.user_id
     | none => 0) + init)

/-- Modelled from the spec: the derived rating invariant of the data model,
`rating(participant) = initial_score + Σ deltas` over all of the owning
participant's result rows. -/
noncomputable def derived_rating (init : ℝ) (subs : List Submission)
    (results : List ResultRow) (u : ℕ) : ℝ :=
  init + ((results.filter (fun r => subs.any (fun s =>
      s.id == r.submission_id && s.user_id == u))).map (fun r => r.points_delta)).sum

/-- The `update_scores` decision of `_run_typical_match` (line 335):
true iff some slot result is flagged healthy. -/
def update_scores_flag (submission_results : List SlotResult) : Bool :=
  submission_results.any (fun r => r.healthy)

/-- The delta list `_save_result` records (lines 270-274): the rating engine's
output on the slot outcomes and the fetched elos when updates are requested,
all zeros otherwise. -/
noncomputable def save_result_deltas (k init : ℝ) (subs : List Submission)
    (olds : List ResultRow) (submission_ids : List ℕ)
    (submission_results : List SlotResult) (update_scores : Bool) : List ℝ :=
  if update_scores then
    calculate_delta_scores k (submission_results.map (fun r => r.outcome))
      (get_elos init subs olds submission_ids)
  else
    List.replicate submission_ids.length 0

/-- Embeds `_save_result` (lines 261-294): `none` on a slot-count mismatch
(the `ValueError`), otherwise the result rows created for the match, one per
zipped (submission id, slot result, delta) triple. -/
noncomputable def save_result (k init : ℝ) (subs : List Submission)
    (olds : List ResultRow) (submission_ids : List ℕ)
    (submission_results : List SlotResult) (update_scores : Bool) :
    Option (List ResultRow) :=
  if submission_ids.length = submission_results.length then
    some ((submission_ids.zip (submission_results.zip
        (save_result_deltas k init subs olds submission_ids submission_results
          update_scores))).map
      (fun p =>
        { submission_id := p.1
          outcome := p.2.1.outcome
          healthy := p.2.1.healthy
          points_delta := p.2.2
          player_id := p.2.1.player_id
          prints := p.2.1.printed
          result_code := p.2.1.result_code }))
  else none

/-- The submission list of `_run_test_match` (line 350): one chosen untested
submission repeated over every player slot. -/
def run_test_match_submissions (chosen : Submission) (player_count : ℕ) :
    List Submission :=
  List.replicate player_count chosen

/-! ### Helper lemmas about recording with updates disabled -/

theorem save_result_false_rows {k init : ℝ} {subs : List Submission}
    {olds : List ResultRow} {ids : List ℕ} {results : List SlotResult}
    {rows : List ResultRow}
    (h : save_result k init subs olds ids results false = some rows) :
    ∀ row ∈ rows, row.points_delta = 0 := by
  unfold save_result at h
  split_ifs at h with hlen
  · simp only [Option.some.injEq] at h
    subst h
    intro row hrow
    obtain ⟨p, hp, rfl⟩ := List.mem_map.mp hrow
    have h2 := (List.of_mem_zip hp).2
    have h3 := (List.of_mem_zip h2).2
    have h4 : p.2.2 ∈ List.replicate ids.length (0 : ℝ) := h3
    exact List.eq_of_mem_replicate h4

theorem derived_rating_append_zero (init : ℝ) (subs : List Submission)
    (olds rows : List ResultRow) (u : ℕ)
    (h : ∀ row ∈ rows, row.points_delta = 0) :
    derived_rating init subs (olds ++ rows) u = derived_rating init subs olds u := by
  unfold derived_rating
  rw [List.filter_append, List.map_append, List.sum_append]
  have hz : ((rows.filter (fun r => subs.any (fun s =>
      s.id == r.submission_id && s.user_id == u))).map
      (fun r => r.points_delta)).sum = 0 := by
    apply List.sum_eq_zero
    intro x hx
    obtain ⟨row, hrow, rfl⟩ := List.mem_map.mp hx
    exact h row (List.mem_of_mem_filter hrow)
  rw [hz, add_zero]

/-! ### C5: the healthy-result gate of typical matches -/

/-- C5: rating updates are applied iff some slot result is flagged healthy;
when every slot is unhealthy the flag is false, the recorded deltas are all
zero, and no participant's derived rating changes. -/
theorem c5_healthy_gate (k init : ℝ) (subs : List Submission)
    (olds : List ResultRow) (ids : List ℕ) (results : List SlotResult) :
    (update_scores_flag results = true ↔ ∃ r ∈ results, r.healthy = true) ∧
    ((∀ r ∈ results, r.healthy = false) →
      update_scores_flag results = false ∧
      save_result_deltas k init subs olds ids results (update_scores_flag results) =
        List.replicate ids.length 0 ∧
      ∀ rows, save_result k init subs olds ids results (update_scores_flag results) =
          some rows →
        ∀ u, derived_rating init subs (olds ++ rows) u =
          derived_rating init subs olds u) := by
  constructor
  · simp [update_scores_flag]
  · intro hall
    have hflag : update_scores_flag results = false := by
      simp only [update_scores_flag, List.any_eq_false]
      intro r hr
      simp [hall r hr]
    refine ⟨hflag, by rw [hflag]; rfl, ?_⟩
    intro rows hrows u
    rw [hflag] at hrows
    exact derived_rating_append_zero init subs olds rows u (save_result_false_rows hrows)

/-- Witness for C5: one all-unhealthy slot result; the update flag is false. -/
theorem c5_witness :
    (∀ r ∈ [SlotResult.mk Outcome.Draw false 0 "" 0], r.healthy = false) ∧
    update_scores_flag [SlotResult.mk Outcome.Draw false 0 "" 0] = false :=
  ⟨by decide,
    ((c5_healthy_gate 1 0 [] [] [] [SlotResult.mk Outcome.Draw false 0 "" 0]).2
      (by decide)).1⟩

/-! ### C8: self-test matches never move ratings -/

/-- C8: a test match fills every slot with the single chosen untested entrant
and records with `update_scores = False`: the recorded deltas do not depend on
the turbulence constant (the rating engine is not consulted), every recorded
delta is 0, and no participant's derived rating changes. -/
theorem c8_test_match_frame (k k2 init : ℝ) (subs : List Submission)
    (olds : List ResultRow) (untested : List Submission) (chosen : Submission)
    (_hchosen : chosen ∈ untested) (player_count : ℕ)
    (results : List SlotResult) (rows : List ResultRow)
    (hsave : save_result k init subs olds
        ((run_test_match_submissions chosen player_count).map (fun s => s.id))
        results false = some rows) :
    run_test_match_submissions chosen player_count =
      List.replicate player_count chosen ∧
    save_result k2 init subs olds
        ((run_test_match_submissions chosen player_count).map (fun s => s.id))
        results false =
      save_result k init subs olds
        ((run_test_match_submissions chosen player_count).map (fun s => s.id))
        results false ∧
    (∀ row ∈ rows, row.points_delta = 0) ∧
    ∀ u, derived_rating init subs (olds ++ rows) u = derived_rating init subs olds u :=
  ⟨rfl, rfl, save_result_false_rows hsave, fun u =>
    derived_rating_append_zero init subs olds rows u (save_result_false_rows hsave)⟩

/-- Witness for C8: one untested submission in a one-slot test match. -/
theorem c8_witness :
    Submission.mk 1 10 ∈ [Submission.mk 1 10] ∧
    save_result 1 0 [] []
        ((run_test_match_submissions (Submission.mk 1 10) 1).map (fun s => s.id))
        [SlotResult.mk Outcome.Draw false 0 "" 0] false =
      some [ResultRow.mk 1 Outcome.Draw false 0 0 "" 0] ∧
    (∀ row ∈ [ResultRow.mk 1 Outcome.Draw false 0 0 "" 0], row.points_delta = 0) :=
  ⟨by decide, rfl,
    (c8_test_match_frame 1 2 0 [] [] [Submission.mk 1 10] (Submission.mk 1 10)
      (by decide) 1 [SlotResult.mk Outcome.Draw false 0 "" 0]
      [ResultRow.mk 1 Outcome.Draw false 0 0 "" 0] rfl).2.2.1⟩

/-! ### C4: the rating query is restricted to the queried id list -/

/-- C4 counterexample: participant 10 owns submissions 1 and 2; submission 1
has a recorded delta of 100 and submission 2 has no results. `_get_elos` for
the id list [2] returns just the initial score 1000, while the derived rating
of participant 10 over all their result rows is 1100: the query ignores result
rows of the participant's submissions outside the queried id list. -/
theorem c4_counterexample :
    get_elos 1000 [Submission.mk 1 10, Submission.mk 2 10]
        [ResultRow.mk 1 Outcome.Win true 100 0 "" 0] [2] = [1000] ∧
    derived_rating 1000 [Submission.mk 1 10, Submission.mk 2 10]
        [ResultRow.mk 1 Outcome.Win true 100 0 "" 0] 10 = 1100 ∧
    (1000 : ℝ) ≠ 1100 := by
  refine ⟨?_, ?_, by norm_num⟩
  · have h1 : get_elos 1000 [Submission.mk 1 10, Submission.mk 2 10]
        [ResultRow.mk 1 Outcome.Win true 100 0 "" 0] [2] = [(0 : ℝ) + 1000] := rfl
    rw [h1]
    norm_num
  · have h2 : derived_rating 1000 [Submission.mk 1 10, Submission.mk 2 10]
        [ResultRow.mk 1 Outcome.Win true 100 0 "" 0] 10 = 1000 + ((100 : ℝ) + 0) := rfl
    rw [h2]
    norm_num

/-- C4 amended: the rating `_get_elos` fetches for each queried entrant equals
the initial score plus the sum of deltas over the result rows of the owning
participant's submissions restricted to the queried id list (not over all the
participant's result rows). -/
theorem c4_amended (init : ℝ) (subs : List Submission) (results : List ResultRow)
    (ids : List ℕ) (j : ℕ) (hj : j < ids.length) (s : Submission)
    (hfind : subs.find? (fun t => t.id == ids.getD j 0) = some s) :
    (get_elos init subs results ids).getD j 0 =
      user_elo_sum subs results ids s.user_id + init := by
  unfold get_elos
  rw [getD_map_of_lt _ _ j hj _ 0, hfind]

/-- Witness for C4's amended statement: a single known submission id. -/
theorem c4_witness :
    (0 : ℕ) < ([1] : List ℕ).length ∧
    [Submission.mk 1 10].find? (fun t => t.id == ([1] : List ℕ).getD 0 0) =
      some (Submission.mk 1 10) ∧
    (get_elos 5 [Submission.mk 1 10] [] [1]).getD 0 0 =
      user_elo_sum [Submission.mk 1 10] [] [1] (Submission.mk 1 10).user_id + 5 :=
  ⟨by norm_num, rfl,
    c4_amended 5 [Submission.mk 1 10] [] [1] 0 (by norm_num) (Submission.mk 1 10) rfl⟩

end Matchmaker
